import Mathlib

/-!
Shallow embedding of `DPG/Tasks/AOTTrack/V0Cascades/perfK0sResolution.cxx`.

Floating-point quantities are modelled as rationals; the `LOG(fatal)`
(process-aborting) paths of `acceptV0` are modelled by `Option Bool`
(`none` = fatal abort, `some b` = accept/reject decision); the histogram
registry is modelled by the list of fill operations a processing call emits.
-/

namespace K0sPerf

/-- Generated (truth) particle record: PDG species code and true momenta,
as consumed through `mcParticle()` in `processMC`. -/
structure McParticle where
  pdgCode : Int
  px : ℚ
  py : ℚ
  pz : ℚ
  pt : ℚ
  deriving DecidableEq, Repr

/-- Daughter track record: the fields of the joined track tables that
`acceptV0`, `processData` and `processMC` read. -/
structure Track where
  eta : ℚ
  px : ℚ
  py : ℚ
  pz : ℚ
  hasTPC : Bool
  hasTOF : Bool
  hasTRD : Bool
  itsNClsInnerBarrel : Nat
  /-- Modelled from the spec: the "number of crossed readout rows" of the
  external track table, a count (hence nonnegative). -/
  tpcNClsCrossedRows : Nat
  tpcNSigmaPi : ℚ
  tpcInnerParam : ℚ
  tpcSignal : ℚ
  pidForTracking : Nat
  mcParticle : Option McParticle
  deriving DecidableEq, Repr

/-- V0 candidate record: the fields of the `V0Datas` row that the task reads,
with the two daughter-track links already resolved (`posTrack_as` /
`negTrack_as`) and, in MC mode, the optional truth link of the candidate. -/
structure V0 where
  yK0Short : ℚ
  v0radius : ℚ
  /-- decay distance over total momentum, as a function of the collision
  vertex coordinates, mirroring `v0.distovertotmom(posX, posY, posZ)`. -/
  distovertotmom : ℚ → ℚ → ℚ → ℚ
  mK0Short : ℚ
  pt : ℚ
  eta : ℚ
  phi : ℚ
  positivept : ℚ
  negativept : ℚ
  pxpos : ℚ
  pypos : ℚ
  pzpos : ℚ
  pxneg : ℚ
  pyneg : ℚ
  pzneg : ℚ
  dcapostopv : ℚ
  dcanegtopv : ℚ
  dcaV0daughters : ℚ
  v0cosPA : ℚ
  posTrack : Track
  negTrack : Track
  mcParticle : Option McParticle

/-- Collision (event) record: primary-vertex position and the `sel8`
selection flag. -/
structure Collision where
  posX : ℚ
  posY : ℚ
  posZ : ℚ
  sel8 : Bool
  deriving DecidableEq, Repr

/-- The task's configurables, with their source names. -/
structure Config where
  v0setting_cospa : ℚ
  v0setting_dcav0dau : ℚ
  v0setting_dcapostopv : ℚ
  v0setting_dcanegtopv : ℚ
  v0setting_radius : ℚ
  v0setting_rapidity : ℚ
  v0lifetime : ℚ
  nMaxTPCNsigma : ℚ
  itsIbSelectionPos : Int
  itsIbSelectionNeg : Int
  trdSelectionPos : Int
  trdSelectionNeg : Int
  tofSelectionPos : Int
  tofSelectionNeg : Int
  pidHypoPos : Int
  pidHypoNeg : Int
  extraCutTPCClusters : ℚ
  useMultidimHisto : Bool
  enableTPCPlot : Bool
  computeInvMassFromDaughters : Bool
  cutzvertex : ℚ
  eventSelection : Bool
  deriving DecidableEq, Repr

/-- Modelled from the spec: the K-short rest mass constant
`pid_constants::sMasses[PID::K0]` of the external PID table (the numeric
value is immaterial to every property proved here). -/
def sMassK0 : ℚ := 497611 / 1000000

/-- Modelled from the spec: the charged-pion mass constant
`o2::constants::physics::MassPionCharged` of the external constants table
(the numeric value is immaterial to every property proved here). -/
def massPionCharged : ℚ := 13957039 / 100000000

/-- Early-return sequencing of `acceptV0`: a `return false` or a fatal abort
in an earlier block suppresses the later blocks. -/
def andThen (r : Option Bool) (k : Unit → Option Bool) : Option Bool :=
  match r with
  | none => none
  | some false => some false
  | some true => k ()

/-- Rapidity block (line 136): `TMath::Abs(v0.yK0Short()) > v0setting_rapidity`
rejects. -/
def rapidityPass (cfg : Config) (v0 : V0) : Bool :=
  !(decide (|v0.yK0Short| > cfg.v0setting_rapidity))

/-- Radius block (line 139): `v0.v0radius() < v0setting_radius` rejects. -/
def radiusPass (cfg : Config) (v0 : V0) : Bool :=
  !(decide (v0.v0radius < cfg.v0setting_radius))

/-- Lifetime block (line 142):
`v0.distovertotmom(...) * sMasses[K0] > 2.684 * v0lifetime` rejects. -/
def lifetimePass (cfg : Config) (v0 : V0) (coll : Collision) : Bool :=
  !(decide (v0.distovertotmom coll.posX coll.posY coll.posZ * sMassK0 >
      2684 / 1000 * cfg.v0lifetime))

/-- One ITS inner-barrel `switch` block (lines 149-182): `-1` rejects when
there are inner-barrel clusters, `0` is no selection, `1` rejects when there
are fewer than one, and any other value hits `LOG(fatal)`. -/
def itsIbCheck (sel : Int) (n : Nat) : Option Bool :=
  if sel = -1 then (if n > 0 then some false else some true)
  else if sel = 0 then some true
  else if sel = 1 then (if n < 1 then some false else some true)
  else none

/-- TPC presence block (line 185): `!ntrack.hasTPC() || !ptrack.hasTPC()`
rejects. -/
def tpcPass (nt pt : Track) : Bool := !(!nt.hasTPC || !pt.hasTPC)

/-- One TPC nsigma block (lines 188, 191): `abs(tpcNSigmaPi) > nMaxTPCNsigma`
rejects. -/
def nsigmaPass (cfg : Config) (t : Track) : Bool :=
  !(decide (|t.tpcNSigmaPi| > cfg.nMaxTPCNsigma))

/-- Crossed-rows block (line 194): either daughter with
`tpcNClsCrossedRows() < extraCutTPCClusters` rejects. -/
def rowsPass (cfg : Config) (nt pt : Track) : Bool :=
  !(decide ((nt.tpcNClsCrossedRows : ℚ) < cfg.extraCutTPCClusters) ||
    decide ((pt.tpcNClsCrossedRows : ℚ) < cfg.extraCutTPCClusters))

/-- One TOF/TRD presence `switch` block (lines 199-268): `-1` rejects when the
detector signal is present, `0` is no selection, `1` rejects when it is
absent, and any other value hits `LOG(fatal)`. -/
def detSelCheck (sel : Int) (has : Bool) : Option Bool :=
  if sel = -1 then (if has then some false else some true)
  else if sel = 0 then some true
  else if sel = 1 then (if !has then some false else some true)
  else none

/-- One PID-hypothesis `switch` block (lines 271-302): `-1` is no selection,
`0`..`4` reject unless `pidForTracking()` equals the cast switch value, and
any other value hits `LOG(fatal)`. -/
def pidHypoCheck (sel : Int) (p : Nat) : Option Bool :=
  if sel = -1 then some true
  else if 0 ≤ sel ∧ sel ≤ 4 then
    (if p ≠ sel.toNat then some false else some true)
  else none

/-- `acceptV0` from the PID-hypothesis blocks on (lines 271-303). -/
def acceptFromPidNeg (cfg : Config) (nt : Track) : Option Bool :=
  andThen (pidHypoCheck cfg.pidHypoNeg nt.pidForTracking) fun _ => some true

/-- `acceptV0` from the positive-daughter PID-hypothesis block on. -/
def acceptFromPidPos (cfg : Config) (nt pt : Track) : Option Bool :=
  andThen (pidHypoCheck cfg.pidHypoPos pt.pidForTracking) fun _ =>
    acceptFromPidNeg cfg nt

/-- `acceptV0` from the negative-daughter TRD block on (lines 252-268). -/
def acceptFromTrdNeg (cfg : Config) (nt pt : Track) : Option Bool :=
  andThen (detSelCheck cfg.trdSelectionNeg nt.hasTRD) fun _ =>
    acceptFromPidPos cfg nt pt

/-- `acceptV0` from the positive-daughter TRD block on (lines 235-251). -/
def acceptFromTrdPos (cfg : Config) (nt pt : Track) : Option Bool :=
  andThen (detSelCheck cfg.trdSelectionPos pt.hasTRD) fun _ =>
    acceptFromTrdNeg cfg nt pt

/-- `acceptV0` from the negative-daughter TOF block on (lines 216-232). -/
def acceptFromTofNeg (cfg : Config) (nt pt : Track) : Option Bool :=
  andThen (detSelCheck cfg.tofSelectionNeg nt.hasTOF) fun _ =>
    acceptFromTrdPos cfg nt pt

/-- `acceptV0` from the positive-daughter TOF block on (lines 199-215). -/
def acceptFromTofPos (cfg : Config) (nt pt : Track) : Option Bool :=
  andThen (detSelCheck cfg.tofSelectionPos pt.hasTOF) fun _ =>
    acceptFromTofNeg cfg nt pt

/-- `acceptV0` from the TPC blocks on (lines 185-196). -/
def acceptFromTpc (cfg : Config) (nt pt : Track) : Option Bool :=
  andThen (some (tpcPass nt pt)) fun _ =>
  andThen (some (nsigmaPass cfg nt)) fun _ =>
  andThen (some (nsigmaPass cfg pt)) fun _ =>
  andThen (some (rowsPass cfg nt pt)) fun _ =>
    acceptFromTofPos cfg nt pt

/-- `acceptV0` from the negative-daughter ITS block on (lines 166-182). -/
def acceptFromItsNeg (cfg : Config) (nt pt : Track) : Option Bool :=
  andThen (itsIbCheck cfg.itsIbSelectionNeg nt.itsNClsInnerBarrel) fun _ =>
    acceptFromTpc cfg nt pt

/-- `acceptV0` from the positive-daughter ITS block on (lines 149-165). -/
def acceptFromItsPos (cfg : Config) (nt pt : Track) : Option Bool :=
  andThen (itsIbCheck cfg.itsIbSelectionPos pt.itsNClsInnerBarrel) fun _ =>
    acceptFromItsNeg cfg nt pt

/-- The candidate-acceptance function `acceptV0` (lines 132-304): the ordered
early-return predicate chain; `none` models the `LOG(fatal)` abort on an
out-of-range switch configurable. -/
def acceptV0 (cfg : Config) (v0 : V0) (nt pt : Track) (coll : Collision) :
    Option Bool :=
  andThen (some (rapidityPass cfg v0)) fun _ =>
  andThen (some (radiusPass cfg v0)) fun _ =>
  andThen (some (lifetimePass cfg v0 coll)) fun _ =>
    acceptFromItsPos cfg nt pt

/-- Outcome of one ITS inner-barrel switch with an in-range selection value
(used to express `acceptV0` as a plain conjunction). -/
def itsIbPass (sel : Int) (n : Nat) : Bool :=
  if sel = -1 then !(decide (n > 0))
  else if sel = 1 then !(decide (n < 1))
  else true

/-- Outcome of one TOF/TRD presence switch with an in-range selection value. -/
def detPass (sel : Int) (has : Bool) : Bool :=
  if sel = -1 then !has
  else if sel = 1 then has
  else true

/-- Outcome of one PID-hypothesis switch with an in-range selection value. -/
def pidPass (sel : Int) (p : Nat) : Bool :=
  if sel = -1 then true else decide (p = sel.toNat)

/-- The conjunction of all of `acceptV0`'s predicates, in source order. -/
def allCutsB (cfg : Config) (v0 : V0) (nt pt : Track) (coll : Collision) :
    Bool :=
  rapidityPass cfg v0 &&
  (radiusPass cfg v0 &&
  (lifetimePass cfg v0 coll &&
  (itsIbPass cfg.itsIbSelectionPos pt.itsNClsInnerBarrel &&
  (itsIbPass cfg.itsIbSelectionNeg nt.itsNClsInnerBarrel &&
  (tpcPass nt pt &&
  (nsigmaPass cfg nt &&
  (nsigmaPass cfg pt &&
  (rowsPass cfg nt pt &&
  (detPass cfg.tofSelectionPos pt.hasTOF &&
  (detPass cfg.tofSelectionNeg nt.hasTOF &&
  (detPass cfg.trdSelectionPos pt.hasTRD &&
  (detPass cfg.trdSelectionNeg nt.hasTRD &&
  (pidPass cfg.pidHypoPos pt.pidForTracking &&
   pidPass cfg.pidHypoNeg nt.pidForTracking)))))))))))))

/-- An ITS/TOF/TRD three-way switch value inside its documented enumeration. -/
def threeWayValid (sel : Int) : Prop := sel = -1 ∨ sel = 0 ∨ sel = 1

/-- A PID-hypothesis switch value inside its documented enumeration. -/
def pidValid (sel : Int) : Prop := sel = -1 ∨ (0 ≤ sel ∧ sel ≤ 4)

instance (sel : Int) : Decidable (threeWayValid sel) := by
  unfold threeWayValid; infer_instance

instance (sel : Int) : Decidable (pidValid sel) := by
  unfold pidValid; infer_instance

/-- All eight switch configurables are inside their documented enumerations,
so no `LOG(fatal)` path can be reached. -/
def validSwitches (cfg : Config) : Prop :=
  threeWayValid cfg.itsIbSelectionPos ∧ threeWayValid cfg.itsIbSelectionNeg ∧
  threeWayValid cfg.tofSelectionPos ∧ threeWayValid cfg.tofSelectionNeg ∧
  threeWayValid cfg.trdSelectionPos ∧ threeWayValid cfg.trdSelectionNeg ∧
  pidValid cfg.pidHypoPos ∧ pidValid cfg.pidHypoNeg

instance (cfg : Config) : Decidable (validSwitches cfg) := by
  unfold validSwitches; infer_instance

/-- One recorded histogram-fill operation: histogram name and filled values
(booleans fill as 1/0, matching the C++ implicit conversion). -/
structure Fill where
  hist : String
  vals : List ℚ
  deriving DecidableEq, Repr

/-- The per-processed-event counter tick `fill(HIST("h1_events"), 0.5)`. -/
def evTick : Fill := ⟨"h1_events", [1 / 2]⟩

/-- The per-candidate counter tick `fill(HIST("h1_events"), 1.5)`. -/
def candTick : Fill := ⟨"h1_events", [3 / 2]⟩

/-- Modelled from the spec: `RecoDecay::m` of the external common library,
for two prongs — `m = sqrt((E1+E2)^2 - |p1+p2|^2)` with
`E_i = sqrt(|p_i|^2 + m_i^2)`; the square root is an abstract parameter
since the embedding is over the rationals. -/
def recoDecayM (sq : ℚ → ℚ) (p1 p2 : ℚ × ℚ × ℚ) (m1 m2 : ℚ) : ℚ :=
  sq ((sq (p1.1 ^ 2 + p1.2.1 ^ 2 + p1.2.2 ^ 2 + m1 ^ 2) +
       sq (p2.1 ^ 2 + p2.2.1 ^ 2 + p2.2.2 ^ 2 + m2 ^ 2)) ^ 2 -
      ((p1.1 + p2.1) ^ 2 + (p1.2.1 + p2.2.1) ^ 2 + (p1.2.2 + p2.2.2) ^ 2))

/-- The mass variable of the process loops (lines 328-333 and 368-373):
the candidate's `mK0Short()` field, or, when `computeInvMassFromDaughters`
is set, `RecoDecay::m` on the daughter momenta under two charged-pion mass
hypotheses. -/
def massUsed (sq : ℚ → ℚ) (cfg : Config) (v0 : V0) : ℚ :=
  if cfg.computeInvMassFromDaughters then
    recoDecayM sq (v0.posTrack.px, v0.posTrack.py, v0.posTrack.pz)
      (v0.negTrack.px, v0.negTrack.py, v0.negTrack.pz)
      massPionCharged massPionCharged
  else v0.mK0Short

/-- The `isTrueK0s` flag (line 374):
`v0.has_mcParticle() && v0.mcParticle().pdgCode() == 310`. -/
def isTrueK0s (v0 : V0) : Bool :=
  match v0.mcParticle with
  | some m => decide (m.pdgCode = 310)
  | none => false

/-- The fills an accepted candidate receives in `processData`
(lines 335-344), in source order. -/
def acceptedFillsData (sq : ℚ → ℚ) (cfg : Config) (v0 : V0) : List Fill :=
  let mass := massUsed sq cfg v0
  [⟨"h2_masspT", [mass, v0.pt]⟩,
   ⟨"h2_masseta", [mass, v0.eta]⟩,
   ⟨"h2_massphi", [mass, v0.phi]⟩] ++
  (if cfg.useMultidimHisto then
    [⟨"thn_mass", [mass, v0.pt, v0.eta, v0.phi, v0.posTrack.eta,
       v0.negTrack.eta]⟩]
   else []) ++
  (if cfg.enableTPCPlot then
    [⟨"h3_tpc_vs_pid_hypothesis", [v0.posTrack.tpcInnerParam,
       v0.posTrack.tpcSignal, (v0.posTrack.pidForTracking : ℚ)]⟩,
     ⟨"h3_tpc_vs_pid_hypothesis", [-v0.negTrack.tpcInnerParam,
       v0.negTrack.tpcSignal, (v0.negTrack.pidForTracking : ℚ)]⟩]
   else [])

/-- The fills an accepted, species-matched candidate receives in `processMC`
(lines 375-395), in source order, with the truth flag of the sparse fill
made an explicit argument (the rest of the fills never read the candidate's
own truth link). -/
def mcFillsWithFlag (sq : ℚ → ℚ) (cfg : Config) (v0 : V0)
    (pMC nMC : McParticle) (flag : Bool) : List Fill :=
  let mass := massUsed sq cfg v0
  [⟨"h2_genPtPosPtRes", [(v0.positivept - pMC.pt) / pMC.pt, pMC.pt]⟩,
   ⟨"h2_genPxPosPxRes", [(v0.pxpos - pMC.px) / pMC.px, pMC.px]⟩,
   ⟨"h2_genPyPosPyRes", [(v0.pypos - pMC.py) / pMC.py, pMC.py]⟩,
   ⟨"h2_genPzPosPzRes", [(v0.pzpos - pMC.pz) / pMC.pz, pMC.pz]⟩,
   ⟨"h2_genPtNegPtRes", [(v0.negativept - nMC.pt) / nMC.pt, nMC.pt]⟩,
   ⟨"h2_genPxNegPxRes", [(v0.pxneg - nMC.px) / nMC.px, nMC.px]⟩,
   ⟨"h2_genPyNegPyRes", [(v0.pyneg - nMC.py) / nMC.py, nMC.py]⟩,
   ⟨"h2_genPzNegPzRes", [(v0.pzneg - nMC.pz) / nMC.pz, nMC.pz]⟩,
   ⟨"h2_massPosPtRes", [mass, v0.positivept - pMC.pt]⟩,
   ⟨"h2_massNegPtRes", [mass, v0.negativept - nMC.pt]⟩,
   ⟨"h2_masspT", [mass, v0.pt]⟩,
   ⟨"h2_masseta", [mass, v0.eta]⟩,
   ⟨"h2_massphi", [mass, v0.phi]⟩] ++
  (if cfg.useMultidimHisto then
    [⟨"thn_mass", [mass, v0.pt, v0.eta, v0.phi, v0.posTrack.eta,
       v0.negTrack.eta,
       1 / v0.positivept - 1 / pMC.pt,
       1 / v0.negativept - 1 / nMC.pt,
       if flag then 1 else 0]⟩]
   else [])

/-- The body of the `processData` candidate loop (lines 322-344) for one
candidate: the per-candidate counter tick, then either rejection or the
accepted candidate's fills; `none` models the fatal abort. -/
def processDataV0 (sq : ℚ → ℚ) (cfg : Config) (coll : Collision) (v0 : V0) :
    Option (List Fill) :=
  match acceptV0 cfg v0 v0.negTrack v0.posTrack coll with
  | none => none
  | some false => some [candTick]
  | some true => some (candTick :: acceptedFillsData sq cfg v0)

/-- The body of the `processMC` candidate loop (lines 354-395) for one
candidate: the counter tick, the acceptance decision, the daughter
truth-link and species-code guards, then the accepted candidate's fills. -/
def processMCV0 (sq : ℚ → ℚ) (cfg : Config) (coll : Collision) (v0 : V0) :
    Option (List Fill) :=
  match acceptV0 cfg v0 v0.negTrack v0.posTrack coll with
  | none => none
  | some false => some [candTick]
  | some true =>
    match v0.posTrack.mcParticle with
    | none => some [candTick]
    | some pMC =>
      match v0.negTrack.mcParticle with
      | none => some [candTick]
      | some nMC =>
        if pMC.pdgCode ≠ 211 ∨ nMC.pdgCode ≠ -211 then some [candTick]
        else some (candTick :: mcFillsWithFlag sq cfg v0 pMC nMC (isTrueK0s v0))

/-- The `processData` candidate loop over the (pre-filtered) candidate
sequence. -/
def loopData (sq : ℚ → ℚ) (cfg : Config) (coll : Collision) :
    List V0 → Option (List Fill)
  | [] => some []
  | v0 :: rest =>
    (processDataV0 sq cfg coll v0).bind fun l =>
      (loopData sq cfg coll rest).map fun ls => l ++ ls

/-- The `processMC` candidate loop over the (pre-filtered) candidate
sequence. -/
def loopMC (sq : ℚ → ℚ) (cfg : Config) (coll : Collision) :
    List V0 → Option (List Fill)
  | [] => some []
  | v0 :: rest =>
    (processMCV0 sq cfg coll v0).bind fun l =>
      (loopMC sq cfg coll rest).map fun ls => l ++ ls

/-- `processData` (lines 316-346): the per-event counter tick followed by the
candidate loop. -/
def processData (sq : ℚ → ℚ) (cfg : Config) (coll : Collision)
    (v0s : List V0) : Option (List Fill) :=
  (loopData sq cfg coll v0s).map fun ls => evTick :: ls

/-- `processMC` (lines 349-397): the per-event counter tick followed by the
candidate loop. -/
def processMC (sq : ℚ → ℚ) (cfg : Config) (coll : Collision)
    (v0s : List V0) : Option (List Fill) :=
  (loopMC sq cfg coll v0s).map fun ls => evTick :: ls

/-- The candidate pre-filter `v0Filter` (lines 307-310). -/
def v0Filter (cfg : Config) (v0 : V0) : Bool :=
  decide (|v0.dcapostopv| > cfg.v0setting_dcapostopv) &&
  decide (|v0.dcanegtopv| > cfg.v0setting_dcanegtopv) &&
  decide (v0.dcaV0daughters < cfg.v0setting_dcav0dau) &&
  decide (v0.v0cosPA > cfg.v0setting_cospa)

/-- The event pre-filter `eventFilter` (line 313). -/
def eventFilter (cfg : Config) (coll : Collision) : Bool :=
  cfg.eventSelection && coll.sel8

/-- The event pre-filter `posZFilter` (line 314). -/
def posZFilter (cfg : Config) (coll : Collision) : Bool :=
  decide (|coll.posZ| < cfg.cutzvertex)

/-- The framework's filter stage: an event is handed to a process function
only if it passes both event filters, and then only the `v0Filter`-passing
candidates are iterated. -/
def runData (sq : ℚ → ℚ) (cfg : Config) (coll : Collision)
    (v0s : List V0) : Option (List Fill) :=
  if eventFilter cfg coll && posZFilter cfg coll then
    processData sq cfg coll (v0s.filter (v0Filter cfg))
  else some []

/-- The filter stage in front of `processMC`, identical to `runData`'s. -/
def runMC (sq : ℚ → ℚ) (cfg : Config) (coll : Collision)
    (v0s : List V0) : Option (List Fill) :=
  if eventFilter cfg coll && posZFilter cfg coll then
    processMC sq cfg coll (v0s.filter (v0Filter cfg))
  else some []

/-- Division with the zero-divisor case made observable: the shadow of one
source division `a / b` used to reason about the division-by-zero edge case
of the resolution fills. -/
def divChecked (a b : ℚ) : Option ℚ :=
  if b = 0 then none else some (a / b)

/-- The divisions of the `processMC` resolution fills (lines 375-383 and
391-393) in source order, each through `divChecked`: the eight relative
residuals, then the four inverse transverse momenta of the sparse fill. -/
def mcResidualsChecked (v0 : V0) (pMC nMC : McParticle) : Option (List ℚ) := do
  let r1 ← divChecked (v0.positivept - pMC.pt) pMC.pt
  let r2 ← divChecked (v0.pxpos - pMC.px) pMC.px
  let r3 ← divChecked (v0.pypos - pMC.py) pMC.py
  let r4 ← divChecked (v0.pzpos - pMC.pz) pMC.pz
  let r5 ← divChecked (v0.negativept - nMC.pt) nMC.pt
  let r6 ← divChecked (v0.pxneg - nMC.px) nMC.px
  let r7 ← divChecked (v0.pyneg - nMC.py) nMC.py
  let r8 ← divChecked (v0.pzneg - nMC.pz) nMC.pz
  let i1 ← divChecked 1 v0.positivept
  let i2 ← divChecked 1 pMC.pt
  let i3 ← divChecked 1 v0.negativept
  let i4 ← divChecked 1 nMC.pt
  pure [r1, r2, r3, r4, r5, r6, r7, r8, i1 - i2, i3 - i4]

/-- Number of fills a fill list makes into one named histogram. -/
def countHist (fs : List Fill) (h : String) : Nat :=
  (fs.filter fun f => f.hist = h).length

/-- The histograms whose first filled coordinate is the mass variable. -/
def massHistNames : List String :=
  ["h2_masspT", "h2_masseta", "h2_massphi", "thn_mass",
   "h2_massPosPtRes", "h2_massNegPtRes"]

/-- The histograms enabled in truth-comparison mode for an accepted,
species-matched candidate. -/
def mcHistNames (cfg : Config) : List String :=
  ["h2_genPtPosPtRes", "h2_genPxPosPxRes", "h2_genPyPosPyRes",
   "h2_genPzPosPzRes", "h2_genPtNegPtRes", "h2_genPxNegPxRes",
   "h2_genPyNegPyRes", "h2_genPzNegPzRes", "h2_massPosPtRes",
   "h2_massNegPtRes", "h2_masspT", "h2_masseta", "h2_massphi"] ++
  (if cfg.useMultidimHisto then ["thn_mass"] else [])

/-- Identity stand-in for the abstract square root in concrete evaluations. -/
def sqId : ℚ → ℚ := fun q => q

/-- Concrete true positive pion for concrete evaluations. -/
def mcPionPos : McParticle := ⟨211, 1, 1, 1, 1⟩

/-- Concrete true negative pion for concrete evaluations. -/
def mcPionNeg : McParticle := ⟨-211, 1, 1, 1, 1⟩

/-- Concrete true particle with a vanishing x-momentum component. -/
def mcZeroPx : McParticle := ⟨211, 0, 1, 1, 1⟩

/-- Concrete positive daughter track for concrete evaluations. -/
def trkPosW : Track :=
  ⟨0, 1, 0, 0, true, false, false, 3, 100, 0, 1, 50, 2, some mcPionPos⟩

/-- Concrete negative daughter track for concrete evaluations. -/
def trkNegW : Track :=
  ⟨0, 0, 1, 0, true, false, false, 3, 100, 0, 1, 50, 2, some mcPionNeg⟩

/-- Concrete collision for concrete evaluations. -/
def collW : Collision := ⟨0, 0, 0, true⟩

/-- Concrete configuration mirroring the source defaults (all switches at
their no-selection values). -/
def cfgW : Config :=
  { v0setting_cospa := 995 / 1000
    v0setting_dcav0dau := 1
    v0setting_dcapostopv := 1 / 10
    v0setting_dcanegtopv := 1 / 10
    v0setting_radius := 9 / 10
    v0setting_rapidity := 1 / 2
    v0lifetime := 3
    nMaxTPCNsigma := 10
    itsIbSelectionPos := 0
    itsIbSelectionNeg := 0
    trdSelectionPos := 0
    trdSelectionNeg := 0
    tofSelectionPos := 0
    tofSelectionNeg := 0
    pidHypoPos := -1
    pidHypoNeg := -1
    extraCutTPCClusters := -1
    useMultidimHisto := false
    enableTPCPlot := false
    computeInvMassFromDaughters := false
    cutzvertex := 10
    eventSelection := true }

/-- Concrete candidate that passes every cut of `cfgW`, with no mother-level
truth link. -/
def v0W : V0 :=
  { yK0Short := 1 / 10
    v0radius := 1
    distovertotmom := fun _ _ _ => 1 / 10
    mK0Short := 1 / 2
    pt := 2
    eta := 0
    phi := 1
    positivept := 1
    negativept := 1
    pxpos := 1
    pypos := 0
    pzpos := 0
    pxneg := 0
    pyneg := 1
    pzneg := 0
    dcapostopv := 1 / 2
    dcanegtopv := 1 / 2
    dcaV0daughters := 1 / 2
    v0cosPA := 999 / 1000
    posTrack := trkPosW
    negTrack := trkNegW
    mcParticle := none }

/-- `cfgW` with the TPC diagnostic plot enabled. -/
def cfgTPC : Config := { cfgW with enableTPCPlot := true }

/-- `cfgW` with an out-of-range ITS inner-barrel switch for the positive
daughter. -/
def cfgBadIts : Config := { cfgW with itsIbSelectionPos := 2 }

/-- `cfgW` with an out-of-range PID-hypothesis switch for the positive
daughter. -/
def cfgBadPid : Config := { cfgW with pidHypoPos := 7 }

/-- `v0W` with the rapidity exactly at the configured cut of `cfgW`. -/
def v0YEdge : V0 := { v0W with yK0Short := 1 / 2 }

/-- `v0W` with the rapidity strictly beyond the configured cut of `cfgW`. -/
def v0YOut : V0 := { v0W with yK0Short := 1 }

/-- `v0W` with the radius exactly at the configured cut of `cfgW`. -/
def v0REdge : V0 := { v0W with v0radius := 9 / 10 }

/-- `v0W` with the radius strictly below the configured cut of `cfgW`. -/
def v0ROut : V0 := { v0W with v0radius := 1 / 2 }

/-- `v0W` with the proper-decay-length quantity exactly at the configured
lifetime bound of `cfgW`. -/
def v0LEdge : V0 :=
  { v0W with distovertotmom := fun _ _ _ => 2684 / 1000 * 3 / sMassK0 }

/-- `v0W` with the proper-decay-length quantity strictly beyond the
configured lifetime bound of `cfgW`. -/
def v0LOut : V0 := { v0W with distovertotmom := fun _ _ _ => 100 }

/-- `v0W` with the positive daughter's truth link removed. -/
def v0NoLink : V0 :=
  { v0W with posTrack := { trkPosW with mcParticle := none } }

lemma andThen_none (k : Unit → Option Bool) : andThen none k = none := rfl

lemma andThen_false (k : Unit → Option Bool) :
    andThen (some false) k = some false := rfl

lemma andThen_true (k : Unit → Option Bool) : andThen (some true) k = k () :=
  rfl

lemma andThen_eq {b c : Bool} {k : Unit → Option Bool} (hk : k () = some c) :
    andThen (some b) k = some (b && c) := by
  cases b
  · simp [andThen]
  · simpa [andThen] using hk

lemma itsIbCheck_valid {sel : Int} (h : threeWayValid sel) (n : Nat) :
    itsIbCheck sel n = some (itsIbPass sel n) := by
  rcases h with h | h | h <;> subst h
  · by_cases hn : n > 0 <;> simp [itsIbCheck, itsIbPass, hn]
  · rfl
  · by_cases hn : n < 1 <;> simp [itsIbCheck, itsIbPass, hn]

lemma detSelCheck_valid {sel : Int} (h : threeWayValid sel) (b : Bool) :
    detSelCheck sel b = some (detPass sel b) := by
  rcases h with h | h | h <;> subst h <;> cases b <;> rfl

lemma pidHypoCheck_valid {sel : Int} (h : pidValid sel) (p : Nat) :
    pidHypoCheck sel p = some (pidPass sel p) := by
  rcases h with h | ⟨h0, h4⟩
  · subst h; rfl
  · have hne : sel ≠ -1 := by omega
    by_cases hp : p = sel.toNat <;>
      simp [pidHypoCheck, pidPass, hne, h0, h4, hp]

lemma itsIbCheck_invalid {sel : Int} (h : ¬ threeWayValid sel) (n : Nat) :
    itsIbCheck sel n = none := by
  rw [threeWayValid] at h
  push_neg at h
  simp [itsIbCheck, h.1, h.2.1, h.2.2]

lemma detSelCheck_invalid {sel : Int} (h : ¬ threeWayValid sel) (b : Bool) :
    detSelCheck sel b = none := by
  rw [threeWayValid] at h
  push_neg at h
  simp [detSelCheck, h.1, h.2.1, h.2.2]

lemma pidHypoCheck_invalid {sel : Int} (h : ¬ pidValid sel) (p : Nat) :
    pidHypoCheck sel p = none := by
  rw [pidValid] at h
  push_neg at h
  have h1 := h.1
  have h2 := h.2
  simp only [pidHypoCheck, h1, if_false]
  have : ¬ (0 ≤ sel ∧ sel ≤ 4) := by
    intro hc
    exact absurd (h2 hc.1) (not_lt.mpr hc.2)
  simp [this]

lemma fromPidNeg_valid (cfg : Config) (nt : Track)
    (h : pidValid cfg.pidHypoNeg) :
    acceptFromPidNeg cfg nt =
      some (pidPass cfg.pidHypoNeg nt.pidForTracking) := by
  unfold acceptFromPidNeg
  rw [pidHypoCheck_valid h, andThen_eq rfl, Bool.and_true]

lemma fromPidPos_valid (cfg : Config) (nt pt : Track)
    (hp : pidValid cfg.pidHypoPos) (hn : pidValid cfg.pidHypoNeg) :
    acceptFromPidPos cfg nt pt =
      some (pidPass cfg.pidHypoPos pt.pidForTracking &&
            pidPass cfg.pidHypoNeg nt.pidForTracking) := by
  unfold acceptFromPidPos
  rw [pidHypoCheck_valid hp]
  exact andThen_eq (fromPidNeg_valid cfg nt hn)

lemma fromTrdNeg_valid (cfg : Config) (nt pt : Track)
    (ht : threeWayValid cfg.trdSelectionNeg)
    (hp : pidValid cfg.pidHypoPos) (hn : pidValid cfg.pidHypoNeg) :
    acceptFromTrdNeg cfg nt pt =
      some (detPass cfg.trdSelectionNeg nt.hasTRD &&
            (pidPass cfg.pidHypoPos pt.pidForTracking &&
             pidPass cfg.pidHypoNeg nt.pidForTracking)) := by
  unfold acceptFromTrdNeg
  rw [detSelCheck_valid ht]
  exact andThen_eq (fromPidPos_valid cfg nt pt hp hn)

lemma fromTrdPos_valid (cfg : Config) (nt pt : Track)
    (ht1 : threeWayValid cfg.trdSelectionPos)
    (ht2 : threeWayValid cfg.trdSelectionNeg)
    (hp : pidValid cfg.pidHypoPos) (hn : pidValid cfg.pidHypoNeg) :
    acceptFromTrdPos cfg nt pt =
      some (detPass cfg.trdSelectionPos pt.hasTRD &&
            (detPass cfg.trdSelectionNeg nt.hasTRD &&
             (pidPass cfg.pidHypoPos pt.pidForTracking &&
              pidPass cfg.pidHypoNeg nt.pidForTracking))) := by
  unfold acceptFromTrdPos
  rw [detSelCheck_valid ht1]
  exact andThen_eq (fromTrdNeg_valid cfg nt pt ht2 hp hn)

lemma fromTofNeg_valid (cfg : Config) (nt pt : Track)
    (ho2 : threeWayValid cfg.tofSelectionNeg)
    (ht1 : threeWayValid cfg.trdSelectionPos)
    (ht2 : threeWayValid cfg.trdSelectionNeg)
    (hp : pidValid cfg.pidHypoPos) (hn : pidValid cfg.pidHypoNeg) :
    acceptFromTofNeg cfg nt pt =
      some (detPass cfg.tofSelectionNeg nt.hasTOF &&
            (detPass cfg.trdSelectionPos pt.hasTRD &&
             (detPass cfg.trdSelectionNeg nt.hasTRD &&
              (pidPass cfg.pidHypoPos pt.pidForTracking &&
               pidPass cfg.pidHypoNeg nt.pidForTracking)))) := by
  unfold acceptFromTofNeg
  rw [detSelCheck_valid ho2]
  exact andThen_eq (fromTrdPos_valid cfg nt pt ht1 ht2 hp hn)

lemma fromTofPos_valid (cfg : Config) (nt pt : Track)
    (ho1 : threeWayValid cfg.tofSelectionPos)
    (ho2 : threeWayValid cfg.tofSelectionNeg)
    (ht1 : threeWayValid cfg.trdSelectionPos)
    (ht2 : threeWayValid cfg.trdSelectionNeg)
    (hp : pidValid cfg.pidHypoPos) (hn : pidValid cfg.pidHypoNeg) :
    acceptFromTofPos cfg nt pt =
      some (detPass cfg.tofSelectionPos pt.hasTOF &&
            (detPass cfg.tofSelectionNeg nt.hasTOF &&
             (detPass cfg.trdSelectionPos pt.hasTRD &&
              (detPass cfg.trdSelectionNeg nt.hasTRD &&
               (pidPass cfg.pidHypoPos pt.pidForTracking &&
                pidPass cfg.pidHypoNeg nt.pidForTracking))))) := by
  unfold acceptFromTofPos
  rw [detSelCheck_valid ho1]
  exact andThen_eq (fromTofNeg_valid cfg nt pt ho2 ht1 ht2 hp hn)

lemma fromTpc_valid (cfg : Config) (nt pt : Track)
    (ho1 : threeWayValid cfg.tofSelectionPos)
    (ho2 : threeWayValid cfg.tofSelectionNeg)
    (ht1 : threeWayValid cfg.trdSelectionPos)
    (ht2 : threeWayValid cfg.trdSelectionNeg)
    (hp : pidValid cfg.pidHypoPos) (hn : pidValid cfg.pidHypoNeg) :
    acceptFromTpc cfg nt pt =
      some (tpcPass nt pt &&
            (nsigmaPass cfg nt &&
             (nsigmaPass cfg pt &&
              (rowsPass cfg nt pt &&
               (detPass cfg.tofSelectionPos pt.hasTOF &&
                (detPass cfg.tofSelectionNeg nt.hasTOF &&
                 (detPass cfg.trdSelectionPos pt.hasTRD &&
                  (detPass cfg.trdSelectionNeg nt.hasTRD &&
                   (pidPass cfg.pidHypoPos pt.pidForTracking &&
                    pidPass cfg.pidHypoNeg nt.pidForTracking))))))))) := by
  unfold acceptFromTpc
  exact andThen_eq (andThen_eq (andThen_eq (andThen_eq
    (fromTofPos_valid cfg nt pt ho1 ho2 ht1 ht2 hp hn))))

lemma fromItsNeg_valid (cfg : Config) (nt pt : Track)
    (hi2 : threeWayValid cfg.itsIbSelectionNeg)
    (ho1 : threeWayValid cfg.tofSelectionPos)
    (ho2 : threeWayValid cfg.tofSelectionNeg)
    (ht1 : threeWayValid cfg.trdSelectionPos)
    (ht2 : threeWayValid cfg.trdSelectionNeg)
    (hp : pidValid cfg.pidHypoPos) (hn : pidValid cfg.pidHypoNeg) :
    acceptFromItsNeg cfg nt pt =
      some (itsIbPass cfg.itsIbSelectionNeg nt.itsNClsInnerBarrel &&
            (tpcPass nt pt &&
             (nsigmaPass cfg nt &&
              (nsigmaPass cfg pt &&
               (rowsPass cfg nt pt &&
                (detPass cfg.tofSelectionPos pt.hasTOF &&
                 (detPass cfg.tofSelectionNeg nt.hasTOF &&
                  (detPass cfg.trdSelectionPos pt.hasTRD &&
                   (detPass cfg.trdSelectionNeg nt.hasTRD &&
                    (pidPass cfg.pidHypoPos pt.pidForTracking &&
                     pidPass cfg.pidHypoNeg nt.pidForTracking)))))))))) := by
  unfold acceptFromItsNeg
  rw [itsIbCheck_valid hi2]
  exact andThen_eq (fromTpc_valid cfg nt pt ho1 ho2 ht1 ht2 hp hn)

lemma fromItsPos_valid (cfg : Config) (nt pt : Track)
    (hi1 : threeWayValid cfg.itsIbSelectionPos)
    (hi2 : threeWayValid cfg.itsIbSelectionNeg)
    (ho1 : threeWayValid cfg.tofSelectionPos)
    (ho2 : threeWayValid cfg.tofSelectionNeg)
    (ht1 : threeWayValid cfg.trdSelectionPos)
    (ht2 : threeWayValid cfg.trdSelectionNeg)
    (hp : pidValid cfg.pidHypoPos) (hn : pidValid cfg.pidHypoNeg) :
    acceptFromItsPos cfg nt pt =
      some (itsIbPass cfg.itsIbSelectionPos pt.itsNClsInnerBarrel &&
            (itsIbPass cfg.itsIbSelectionNeg nt.itsNClsInnerBarrel &&
             (tpcPass nt pt &&
              (nsigmaPass cfg nt &&
               (nsigmaPass cfg pt &&
                (rowsPass cfg nt pt &&
                 (detPass cfg.tofSelectionPos pt.hasTOF &&
                  (detPass cfg.tofSelectionNeg nt.hasTOF &&
                   (detPass cfg.trdSelectionPos pt.hasTRD &&
                    (detPass cfg.trdSelectionNeg nt.hasTRD &&
                     (pidPass cfg.pidHypoPos pt.pidForTracking &&
                      pidPass cfg.pidHypoNeg nt.pidForTracking))))))))))) := by
  unfold acceptFromItsPos
  rw [itsIbCheck_valid hi1]
  exact andThen_eq
    (fromItsNeg_valid cfg nt pt hi2 ho1 ho2 ht1 ht2 hp hn)

/-- Under an in-range switch configuration, `acceptV0` computes exactly the
conjunction of its fourteen predicates. -/
lemma acceptV0_valid (cfg : Config) (v0 : V0) (nt pt : Track)
    (coll : Collision) (hv : validSwitches cfg) :
    acceptV0 cfg v0 nt pt coll = some (allCutsB cfg v0 nt pt coll) := by
  obtain ⟨hi1, hi2, ho1, ho2, ht1, ht2, hp1, hp2⟩ := hv
  unfold acceptV0 allCutsB
  exact andThen_eq (andThen_eq (andThen_eq
    (fromItsPos_valid cfg nt pt hi1 hi2 ho1 ho2 ht1 ht2 hp1 hp2)))

lemma acceptV0_kin (cfg : Config) (v0 : V0) (nt pt : Track)
    (coll : Collision) (h1 : rapidityPass cfg v0 = true)
    (h2 : radiusPass cfg v0 = true) (h3 : lifetimePass cfg v0 coll = true) :
    acceptV0 cfg v0 nt pt coll = acceptFromItsPos cfg nt pt := by
  simp only [acceptV0, h1, h2, h3, andThen_true]

lemma itsPos_step (cfg : Config) (nt pt : Track)
    (h : itsIbCheck cfg.itsIbSelectionPos pt.itsNClsInnerBarrel = some true) :
    acceptFromItsPos cfg nt pt = acceptFromItsNeg cfg nt pt := by
  simp only [acceptFromItsPos, h, andThen_true]

lemma itsNeg_step (cfg : Config) (nt pt : Track)
    (h : itsIbCheck cfg.itsIbSelectionNeg nt.itsNClsInnerBarrel = some true) :
    acceptFromItsNeg cfg nt pt = acceptFromTpc cfg nt pt := by
  simp only [acceptFromItsNeg, h, andThen_true]

lemma tpc_step (cfg : Config) (nt pt : Track) (h6 : tpcPass nt pt = true)
    (h7 : nsigmaPass cfg nt = true) (h8 : nsigmaPass cfg pt = true)
    (h9 : rowsPass cfg nt pt = true) :
    acceptFromTpc cfg nt pt = acceptFromTofPos cfg nt pt := by
  simp only [acceptFromTpc, h6, h7, h8, h9, andThen_true]

lemma tofPos_step (cfg : Config) (nt pt : Track)
    (h : detSelCheck cfg.tofSelectionPos pt.hasTOF = some true) :
    acceptFromTofPos cfg nt pt = acceptFromTofNeg cfg nt pt := by
  simp only [acceptFromTofPos, h, andThen_true]

lemma tofNeg_step (cfg : Config) (nt pt : Track)
    (h : detSelCheck cfg.tofSelectionNeg nt.hasTOF = some true) :
    acceptFromTofNeg cfg nt pt = acceptFromTrdPos cfg nt pt := by
  simp only [acceptFromTofNeg, h, andThen_true]

lemma trdPos_step (cfg : Config) (nt pt : Track)
    (h : detSelCheck cfg.trdSelectionPos pt.hasTRD = some true) :
    acceptFromTrdPos cfg nt pt = acceptFromTrdNeg cfg nt pt := by
  simp only [acceptFromTrdPos, h, andThen_true]

lemma trdNeg_step (cfg : Config) (nt pt : Track)
    (h : detSelCheck cfg.trdSelectionNeg nt.hasTRD = some true) :
    acceptFromTrdNeg cfg nt pt = acceptFromPidPos cfg nt pt := by
  simp only [acceptFromTrdNeg, h, andThen_true]

/-- C4: for each of the six three-way detector switches (ITS inner barrel,
TOF, TRD, per positive and negative daughter), when the evaluation reaches
that switch, value `-1` rejects a candidate whose daughter has the detector
signal (any inner-barrel hit), value `0` imposes no constraint, value `1`
rejects a candidate whose daughter lacks it, and any other value takes the
fatal path (`none`), not a silent per-candidate pass or reject. -/
theorem detector_switch_semantics (cfg : Config) (v0 : V0) (nt pt : Track)
    (coll : Collision) (h1 : rapidityPass cfg v0 = true)
    (h2 : radiusPass cfg v0 = true) (h3 : lifetimePass cfg v0 coll = true) :
    ((cfg.itsIbSelectionPos = -1 → 0 < pt.itsNClsInnerBarrel →
        acceptV0 cfg v0 nt pt coll = some false) ∧
     (∀ n, itsIbCheck 0 n = some true) ∧
     (cfg.itsIbSelectionPos = 1 → pt.itsNClsInnerBarrel = 0 →
        acceptV0 cfg v0 nt pt coll = some false) ∧
     (¬ threeWayValid cfg.itsIbSelectionPos →
        acceptV0 cfg v0 nt pt coll = none)) ∧
    (itsIbCheck cfg.itsIbSelectionPos pt.itsNClsInnerBarrel = some true →
      (cfg.itsIbSelectionNeg = -1 → 0 < nt.itsNClsInnerBarrel →
        acceptV0 cfg v0 nt pt coll = some false) ∧
      (cfg.itsIbSelectionNeg = 1 → nt.itsNClsInnerBarrel = 0 →
        acceptV0 cfg v0 nt pt coll = some false) ∧
      (¬ threeWayValid cfg.itsIbSelectionNeg →
        acceptV0 cfg v0 nt pt coll = none)) ∧
    (itsIbCheck cfg.itsIbSelectionPos pt.itsNClsInnerBarrel = some true →
     itsIbCheck cfg.itsIbSelectionNeg nt.itsNClsInnerBarrel = some true →
     tpcPass nt pt = true → nsigmaPass cfg nt = true →
     nsigmaPass cfg pt = true → rowsPass cfg nt pt = true →
      (∀ b, detSelCheck 0 b = some true) ∧
      (cfg.tofSelectionPos = -1 → pt.hasTOF = true →
        acceptV0 cfg v0 nt pt coll = some false) ∧
      (cfg.tofSelectionPos = 1 → pt.hasTOF = false →
        acceptV0 cfg v0 nt pt coll = some false) ∧
      (¬ threeWayValid cfg.tofSelectionPos →
        acceptV0 cfg v0 nt pt coll = none) ∧
      (detSelCheck cfg.tofSelectionPos pt.hasTOF = some true →
        (cfg.tofSelectionNeg = -1 → nt.hasTOF = true →
          acceptV0 cfg v0 nt pt coll = some false) ∧
        (cfg.tofSelectionNeg = 1 → nt.hasTOF = false →
          acceptV0 cfg v0 nt pt coll = some false) ∧
        (¬ threeWayValid cfg.tofSelectionNeg →
          acceptV0 cfg v0 nt pt coll = none) ∧
        (detSelCheck cfg.tofSelectionNeg nt.hasTOF = some true →
          (cfg.trdSelectionPos = -1 → pt.hasTRD = true →
            acceptV0 cfg v0 nt pt coll = some false) ∧
          (cfg.trdSelectionPos = 1 → pt.hasTRD = false →
            acceptV0 cfg v0 nt pt coll = some false) ∧
          (¬ threeWayValid cfg.trdSelectionPos →
            acceptV0 cfg v0 nt pt coll = none) ∧
          (detSelCheck cfg.trdSelectionPos pt.hasTRD = some true →
            (cfg.trdSelectionNeg = -1 → nt.hasTRD = true →
              acceptV0 cfg v0 nt pt coll = some false) ∧
            (cfg.trdSelectionNeg = 1 → nt.hasTRD = false →
              acceptV0 cfg v0 nt pt coll = some false) ∧
            (¬ threeWayValid cfg.trdSelectionNeg →
              acceptV0 cfg v0 nt pt coll = none))))) := by
  have base := acceptV0_kin cfg v0 nt pt coll h1 h2 h3
  refine ⟨⟨?_, fun n => rfl, ?_, ?_⟩, ?_, ?_⟩
  · intro hs hn
    rw [base]
    unfold acceptFromItsPos
    rw [hs]
    have hc : itsIbCheck (-1) pt.itsNClsInnerBarrel = some false := by
      simp [itsIbCheck, hn]
    rw [hc]
    rfl
  · intro hs hn
    rw [base]
    unfold acceptFromItsPos
    rw [hs]
    have hc : itsIbCheck 1 pt.itsNClsInnerBarrel = some false := by
      simp [itsIbCheck, hn]
    rw [hc]
    rfl
  · intro hinv
    rw [base]
    unfold acceptFromItsPos
    rw [itsIbCheck_invalid hinv]
    rfl
  · intro hchk1
    have red := base.trans (itsPos_step cfg nt pt hchk1)
    refine ⟨?_, ?_, ?_⟩
    · intro hs hn
      rw [red]
      unfold acceptFromItsNeg
      rw [hs]
      have hc : itsIbCheck (-1) nt.itsNClsInnerBarrel = some false := by
        simp [itsIbCheck, hn]
      rw [hc]
      rfl
    · intro hs hn
      rw [red]
      unfold acceptFromItsNeg
      rw [hs]
      have hc : itsIbCheck 1 nt.itsNClsInnerBarrel = some false := by
        simp [itsIbCheck, hn]
      rw [hc]
      rfl
    · intro hinv
      rw [red]
      unfold acceptFromItsNeg
      rw [itsIbCheck_invalid hinv]
      rfl
  · intro hchk1 hchk2 h6 h7 h8 h9
    have red := (base.trans (itsPos_step cfg nt pt hchk1)).trans
      ((itsNeg_step cfg nt pt hchk2).trans
        (tpc_step cfg nt pt h6 h7 h8 h9))
    refine ⟨fun b => rfl, ?_, ?_, ?_, ?_⟩
    · intro hs hb
      rw [red]
      unfold acceptFromTofPos
      rw [hs, hb]
      rfl
    · intro hs hb
      rw [red]
      unfold acceptFromTofPos
      rw [hs, hb]
      rfl
    · intro hinv
      rw [red]
      unfold acceptFromTofPos
      rw [detSelCheck_invalid hinv]
      rfl
    · intro h10
      have red2 := red.trans (tofPos_step cfg nt pt h10)
      refine ⟨?_, ?_, ?_, ?_⟩
      · intro hs hb
        rw [red2]
        unfold acceptFromTofNeg
        rw [hs, hb]
        rfl
      · intro hs hb
        rw [red2]
        unfold acceptFromTofNeg
        rw [hs, hb]
        rfl
      · intro hinv
        rw [red2]
        unfold acceptFromTofNeg
        rw [detSelCheck_invalid hinv]
        rfl
      · intro h11
        have red3 := red2.trans (tofNeg_step cfg nt pt h11)
        refine ⟨?_, ?_, ?_, ?_⟩
        · intro hs hb
          rw [red3]
          unfold acceptFromTrdPos
          rw [hs, hb]
          rfl
        · intro hs hb
          rw [red3]
          unfold acceptFromTrdPos
          rw [hs, hb]
          rfl
        · intro hinv
          rw [red3]
          unfold acceptFromTrdPos
          rw [detSelCheck_invalid hinv]
          rfl
        · intro h12
          have red4 := red3.trans (trdPos_step cfg nt pt h12)
          refine ⟨?_, ?_, ?_⟩
          · intro hs hb
            rw [red4]
            unfold acceptFromTrdNeg
            rw [hs, hb]
            rfl
          · intro hs hb
            rw [red4]
            unfold acceptFromTrdNeg
            rw [hs, hb]
            rfl
          · intro hinv
            rw [red4]
            unfold acceptFromTrdNeg
            rw [detSelCheck_invalid hinv]
            rfl

/-- C8: for each of the two PID-hypothesis switches, when the evaluation
reaches that switch, value `-1` imposes no constraint, each value in `0`..`4`
rejects the candidate unless the daughter's recorded tracking PID-hypothesis
index equals that value, and any other value takes the fatal path (`none`),
not a per-candidate rejection. -/
theorem pid_switch_semantics (cfg : Config) (v0 : V0) (nt pt : Track)
    (coll : Collision) (h1 : rapidityPass cfg v0 = true)
    (h2 : radiusPass cfg v0 = true) (h3 : lifetimePass cfg v0 coll = true)
    (h4 : itsIbCheck cfg.itsIbSelectionPos pt.itsNClsInnerBarrel = some true)
    (h5 : itsIbCheck cfg.itsIbSelectionNeg nt.itsNClsInnerBarrel = some true)
    (h6 : tpcPass nt pt = true) (h7 : nsigmaPass cfg nt = true)
    (h8 : nsigmaPass cfg pt = true) (h9 : rowsPass cfg nt pt = true)
    (h10 : detSelCheck cfg.tofSelectionPos pt.hasTOF = some true)
    (h11 : detSelCheck cfg.tofSelectionNeg nt.hasTOF = some true)
    (h12 : detSelCheck cfg.trdSelectionPos pt.hasTRD = some true)
    (h13 : detSelCheck cfg.trdSelectionNeg nt.hasTRD = some true) :
    (∀ p, pidHypoCheck (-1) p = some true) ∧
    (0 ≤ cfg.pidHypoPos → cfg.pidHypoPos ≤ 4 →
      pt.pidForTracking ≠ cfg.pidHypoPos.toNat →
      acceptV0 cfg v0 nt pt coll = some false) ∧
    (¬ pidValid cfg.pidHypoPos → acceptV0 cfg v0 nt pt coll = none) ∧
    (pidHypoCheck cfg.pidHypoPos pt.pidForTracking = some true →
      (0 ≤ cfg.pidHypoNeg → cfg.pidHypoNeg ≤ 4 →
        nt.pidForTracking ≠ cfg.pidHypoNeg.toNat →
        acceptV0 cfg v0 nt pt coll = some false) ∧
      (¬ pidValid cfg.pidHypoNeg → acceptV0 cfg v0 nt pt coll = none) ∧
      (pidHypoCheck cfg.pidHypoNeg nt.pidForTracking = some true →
        acceptV0 cfg v0 nt pt coll = some true)) := by
  have red : acceptV0 cfg v0 nt pt coll = acceptFromPidPos cfg nt pt := by
    rw [acceptV0_kin cfg v0 nt pt coll h1 h2 h3, itsPos_step cfg nt pt h4,
      itsNeg_step cfg nt pt h5, tpc_step cfg nt pt h6 h7 h8 h9,
      tofPos_step cfg nt pt h10, tofNeg_step cfg nt pt h11,
      trdPos_step cfg nt pt h12, trdNeg_step cfg nt pt h13]
  refine ⟨fun p => rfl, ?_, ?_, ?_⟩
  · intro ha hb hp
    rw [red]
    unfold acceptFromPidPos
    have hne : cfg.pidHypoPos ≠ -1 := by omega
    have hc : pidHypoCheck cfg.pidHypoPos pt.pidForTracking = some false := by
      simp [pidHypoCheck, hne, ha, hb, hp]
    rw [hc]
    rfl
  · intro hinv
    rw [red]
    unfold acceptFromPidPos
    rw [pidHypoCheck_invalid hinv]
    rfl
  · intro hcp
    have red2 : acceptV0 cfg v0 nt pt coll = acceptFromPidNeg cfg nt := by
      rw [red]
      unfold acceptFromPidPos
      rw [hcp]
      rfl
    refine ⟨?_, ?_, ?_⟩
    · intro ha hb hp
      rw [red2]
      unfold acceptFromPidNeg
      have hne : cfg.pidHypoNeg ≠ -1 := by omega
      have hc : pidHypoCheck cfg.pidHypoNeg nt.pidForTracking = some false := by
        simp [pidHypoCheck, hne, ha, hb, hp]
      rw [hc]
      rfl
    · intro hinv
      rw [red2]
      unfold acceptFromPidNeg
      rw [pidHypoCheck_invalid hinv]
      rfl
    · intro hcn
      rw [red2]
      unfold acceptFromPidNeg
      rw [hcn]
      rfl

/-- Concrete exercise of `detector_switch_semantics`: an out-of-range ITS
inner-barrel switch aborts (`none`) on a candidate that passed the
kinematic cuts. -/
theorem detector_switch_semantics_app :
    acceptV0 cfgBadIts v0W trkNegW trkPosW collW = none :=
  (detector_switch_semantics cfgBadIts v0W trkNegW trkPosW collW
    (by norm_num [rapidityPass, cfgBadIts, cfgW, v0W, abs_of_nonneg])
    (by norm_num [radiusPass, cfgBadIts, cfgW, v0W])
    (by norm_num [lifetimePass, cfgBadIts, cfgW, v0W, collW,
      sMassK0])).1.2.2.2 (by decide)

/-- Concrete exercise of `pid_switch_semantics`: an out-of-range positive
PID-hypothesis switch aborts (`none`) on a candidate reaching that switch. -/
theorem pid_switch_semantics_app :
    acceptV0 cfgBadPid v0W trkNegW trkPosW collW = none :=
  (pid_switch_semantics cfgBadPid v0W trkNegW trkPosW collW
    (by norm_num [rapidityPass, cfgBadPid, cfgW, v0W, abs_of_nonneg])
    (by norm_num [radiusPass, cfgBadPid, cfgW, v0W])
    (by norm_num [lifetimePass, cfgBadPid, cfgW, v0W, collW, sMassK0])
    (by decide) (by decide) (by decide) (by decide) (by decide) (by decide)
    (by decide) (by decide) (by decide) (by decide)).2.2.1 (by decide)

/-- C1: under an in-range switch configuration, `acceptV0` returns `some true`
exactly when the conjunction of all its predicates holds — rapidity, radius,
proper decay length, both inner-barrel switch constraints, both daughters
having TPC, both TPC-nsigma cuts, both crossed-row cuts (vacuous for a
negative threshold), the TOF/TRD switch constraints and the PID-hypothesis
match constraints; as a plain conjunction, the result is independent of the
short-circuit evaluation order. -/
theorem acceptV0_iff_all_cuts (cfg : Config) (v0 : V0) (nt pt : Track)
    (coll : Collision) (hv : validSwitches cfg) :
    (acceptV0 cfg v0 nt pt coll = some true ↔
      (|v0.yK0Short| ≤ cfg.v0setting_rapidity ∧
       cfg.v0setting_radius ≤ v0.v0radius ∧
       v0.distovertotmom coll.posX coll.posY coll.posZ * sMassK0 ≤
         2684 / 1000 * cfg.v0lifetime ∧
       itsIbPass cfg.itsIbSelectionPos pt.itsNClsInnerBarrel = true ∧
       itsIbPass cfg.itsIbSelectionNeg nt.itsNClsInnerBarrel = true ∧
       nt.hasTPC = true ∧ pt.hasTPC = true ∧
       |nt.tpcNSigmaPi| ≤ cfg.nMaxTPCNsigma ∧
       |pt.tpcNSigmaPi| ≤ cfg.nMaxTPCNsigma ∧
       cfg.extraCutTPCClusters ≤ (nt.tpcNClsCrossedRows : ℚ) ∧
       cfg.extraCutTPCClusters ≤ (pt.tpcNClsCrossedRows : ℚ) ∧
       detPass cfg.tofSelectionPos pt.hasTOF = true ∧
       detPass cfg.tofSelectionNeg nt.hasTOF = true ∧
       detPass cfg.trdSelectionPos pt.hasTRD = true ∧
       detPass cfg.trdSelectionNeg nt.hasTRD = true ∧
       pidPass cfg.pidHypoPos pt.pidForTracking = true ∧
       pidPass cfg.pidHypoNeg nt.pidForTracking = true)) ∧
    (cfg.extraCutTPCClusters < 0 → rowsPass cfg nt pt = true) := by
  constructor
  · rw [acceptV0_valid cfg v0 nt pt coll hv]
    simp only [Option.some.injEq, allCutsB, Bool.and_eq_true, rapidityPass,
      radiusPass, lifetimePass, tpcPass, nsigmaPass, rowsPass,
      Bool.not_eq_true', Bool.not_eq_false', decide_eq_false_iff_not, not_lt,
      Bool.or_eq_false_iff]
    tauto
  · intro h
    have hn : ¬ ((nt.tpcNClsCrossedRows : ℚ) < cfg.extraCutTPCClusters) :=
      not_lt.mpr (h.le.trans (Nat.cast_nonneg _))
    have hp : ¬ ((pt.tpcNClsCrossedRows : ℚ) < cfg.extraCutTPCClusters) :=
      not_lt.mpr (h.le.trans (Nat.cast_nonneg _))
    simp [rowsPass, hn, hp]

/-- Concrete exercise of `acceptV0_iff_all_cuts`: the default-like
configuration accepts the concrete candidate. -/
theorem acceptV0_iff_all_cuts_app :
    acceptV0 cfgW v0W trkNegW trkPosW collW = some true :=
  (acceptV0_iff_all_cuts cfgW v0W trkNegW trkPosW collW (by decide)).1.mpr
    (by norm_num [itsIbPass, detPass, pidPass, cfgW, v0W, trkPosW, trkNegW,
      collW, sMassK0, abs_of_nonneg])

/-- C5: the rapidity, radius and lifetime cut boundaries are inclusive on the
accept side — exact equality passes each predicate — and a candidate strictly
beyond any of the three boundaries is rejected by `acceptV0`. -/
theorem boundary_inclusivity (cfg : Config) (v0 : V0) (nt pt : Track)
    (coll : Collision) :
    (|v0.yK0Short| = cfg.v0setting_rapidity → rapidityPass cfg v0 = true) ∧
    (v0.v0radius = cfg.v0setting_radius → radiusPass cfg v0 = true) ∧
    (v0.distovertotmom coll.posX coll.posY coll.posZ * sMassK0 =
        2684 / 1000 * cfg.v0lifetime → lifetimePass cfg v0 coll = true) ∧
    (|v0.yK0Short| > cfg.v0setting_rapidity →
      acceptV0 cfg v0 nt pt coll = some false) ∧
    (v0.v0radius < cfg.v0setting_radius →
      acceptV0 cfg v0 nt pt coll = some false) ∧
    (v0.distovertotmom coll.posX coll.posY coll.posZ * sMassK0 >
        2684 / 1000 * cfg.v0lifetime →
      acceptV0 cfg v0 nt pt coll = some false) := by
  refine ⟨?_, ?_, ?_, ?_, ?_, ?_⟩
  · intro h
    simp [rapidityPass, h]
  · intro h
    simp [radiusPass, h]
  · intro h
    simp [lifetimePass, h]
  · intro h
    have hr : rapidityPass cfg v0 = false := by simp [rapidityPass, h]
    simp only [acceptV0, hr, andThen_false]
  · intro h
    have hr2 : radiusPass cfg v0 = false := by simp [radiusPass, h]
    cases hr : rapidityPass cfg v0
    · simp only [acceptV0, hr, andThen_false]
    · simp only [acceptV0, hr, hr2, andThen_true, andThen_false]
  · intro h
    have hr3 : lifetimePass cfg v0 coll = false := by simp [lifetimePass, h]
    cases hr : rapidityPass cfg v0
    · simp only [acceptV0, hr, andThen_false]
    · cases hr2 : radiusPass cfg v0
      · simp only [acceptV0, hr, hr2, andThen_true, andThen_false]
      · simp only [acceptV0, hr, hr2, hr3, andThen_true, andThen_false]

/-- Concrete exercise of `boundary_inclusivity`: exact-boundary candidates
pass the respective predicates and strictly-outside candidates are
rejected. -/
theorem boundary_inclusivity_app :
    rapidityPass cfgW v0YEdge = true ∧
    radiusPass cfgW v0REdge = true ∧
    lifetimePass cfgW v0LEdge collW = true ∧
    acceptV0 cfgW v0YOut trkNegW trkPosW collW = some false ∧
    acceptV0 cfgW v0ROut trkNegW trkPosW collW = some false ∧
    acceptV0 cfgW v0LOut trkNegW trkPosW collW = some false :=
  ⟨(boundary_inclusivity cfgW v0YEdge trkNegW trkPosW collW).1
      (by norm_num [cfgW, v0YEdge, v0W, abs_of_nonneg]),
   (boundary_inclusivity cfgW v0REdge trkNegW trkPosW collW).2.1
      (by norm_num [cfgW, v0REdge, v0W]),
   (boundary_inclusivity cfgW v0LEdge trkNegW trkPosW collW).2.2.1
      (by norm_num [cfgW, v0LEdge, v0W, collW, sMassK0]),
   (boundary_inclusivity cfgW v0YOut trkNegW trkPosW collW).2.2.2.1
      (by norm_num [cfgW, v0YOut, v0W, abs_of_nonneg]),
   (boundary_inclusivity cfgW v0ROut trkNegW trkPosW collW).2.2.2.2.1
      (by norm_num [cfgW, v0ROut, v0W]),
   (boundary_inclusivity cfgW v0LOut trkNegW trkPosW collW).2.2.2.2.2
      (by norm_num [cfgW, v0LOut, v0W, collW, sMassK0])⟩

/-- C6: the pre-filter stage is strict — a candidate enters the per-candidate
loop only with both daughter impact parameters strictly above their minima,
DCA between daughters strictly below its maximum and pointing-angle cosine
strictly above its minimum; an event is processed only with (when event
selection is enabled) the `sel8` flag set and the vertex `z` magnitude
strictly below the cut, and an event failing the event filters produces no
candidate processing at all. -/
theorem prefilter_strict (sq : ℚ → ℚ) (cfg : Config) (coll : Collision)
    (v0s : List V0) (v0 : V0) :
    (v0 ∈ v0s.filter (v0Filter cfg) →
      |v0.dcapostopv| > cfg.v0setting_dcapostopv ∧
      |v0.dcanegtopv| > cfg.v0setting_dcanegtopv ∧
      v0.dcaV0daughters < cfg.v0setting_dcav0dau ∧
      v0.v0cosPA > cfg.v0setting_cospa) ∧
    ((eventFilter cfg coll && posZFilter cfg coll) = true →
      (cfg.eventSelection = true → coll.sel8 = true) ∧
      |coll.posZ| < cfg.cutzvertex) ∧
    ((eventFilter cfg coll && posZFilter cfg coll) = false →
      runData sq cfg coll v0s = some [] ∧ runMC sq cfg coll v0s = some []) := by
  refine ⟨?_, ?_, ?_⟩
  · intro hm
    have h := (List.mem_filter.mp hm).2
    simp only [v0Filter, Bool.and_eq_true, decide_eq_true_eq] at h
    exact ⟨h.1.1.1, h.1.1.2, h.1.2, h.2⟩
  · intro h
    simp only [eventFilter, posZFilter, Bool.and_eq_true,
      decide_eq_true_eq] at h
    exact ⟨fun _ => h.1.2, h.2⟩
  · intro h
    constructor <;> simp [runData, runMC, h]

/-- Concrete exercise of `prefilter_strict`: the concrete candidate in the
filtered sequence satisfies all four strict candidate-level inequalities. -/
theorem prefilter_strict_app :
    |v0W.dcapostopv| > cfgW.v0setting_dcapostopv ∧
    |v0W.dcanegtopv| > cfgW.v0setting_dcanegtopv ∧
    v0W.dcaV0daughters < cfgW.v0setting_dcav0dau ∧
    v0W.v0cosPA > cfgW.v0setting_cospa := by
  refine (prefilter_strict sqId cfgW collW [v0W] v0W).1 ?_
  have hf : v0Filter cfgW v0W = true := by
    norm_num [v0Filter, cfgW, v0W, abs_of_nonneg]
  simp [List.filter_cons, hf]

lemma accept_v0W_tracks :
    acceptV0 cfgW v0W v0W.negTrack v0W.posTrack collW = some true := by
  rw [acceptV0_valid cfgW v0W v0W.negTrack v0W.posTrack collW (by decide)]
  norm_num [allCutsB, rapidityPass, radiusPass, lifetimePass, itsIbPass,
    detPass, pidPass, tpcPass, nsigmaPass, rowsPass, cfgW, v0W, trkPosW,
    trkNegW, collW, sMassK0, abs_of_nonneg]

lemma accept_v0NoLink :
    acceptV0 cfgW v0NoLink v0NoLink.negTrack v0NoLink.posTrack collW =
      some true := by
  rw [acceptV0_valid cfgW v0NoLink v0NoLink.negTrack v0NoLink.posTrack collW
    (by decide)]
  norm_num [allCutsB, rapidityPass, radiusPass, lifetimePass, itsIbPass,
    detPass, pidPass, tpcPass, nsigmaPass, rowsPass, cfgW, v0NoLink, v0W,
    trkPosW, trkNegW, collW, sMassK0, abs_of_nonneg]

/-- C2: the mass variable filled into every mass-carrying histogram of both
processing modes is the candidate's precomputed `mK0Short` field when the
recomputation toggle is off, and the two-pion invariant mass
`sqrt((E1+E2)^2 - |p1+p2|^2)` with `E_i = sqrt(|p_i|^2 + m_pion^2)`
recomputed from the daughters' three-momenta when it is on. -/
theorem mass_method_selection (sq : ℚ → ℚ) (cfg : Config) (v0 : V0)
    (pMC nMC : McParticle) (b : Bool) :
    (massUsed sq cfg v0 =
      if cfg.computeInvMassFromDaughters then
        sq ((sq (v0.posTrack.px ^ 2 + v0.posTrack.py ^ 2 + v0.posTrack.pz ^ 2 +
              massPionCharged ^ 2) +
             sq (v0.negTrack.px ^ 2 + v0.negTrack.py ^ 2 + v0.negTrack.pz ^ 2 +
              massPionCharged ^ 2)) ^ 2 -
            ((v0.posTrack.px + v0.negTrack.px) ^ 2 +
             (v0.posTrack.py + v0.negTrack.py) ^ 2 +
             (v0.posTrack.pz + v0.negTrack.pz) ^ 2))
      else v0.mK0Short) ∧
    (∀ f ∈ acceptedFillsData sq cfg v0, f.hist ∈ massHistNames →
      f.vals.head? = some (massUsed sq cfg v0)) ∧
    (∀ f ∈ mcFillsWithFlag sq cfg v0 pMC nMC b, f.hist ∈ massHistNames →
      f.vals.head? = some (massUsed sq cfg v0)) := by
  refine ⟨rfl, ?_, ?_⟩
  · intro f hf hh
    simp only [acceptedFillsData] at hf
    rcases List.mem_append.mp hf with hf' | hfC
    · rcases List.mem_append.mp hf' with hfA | hfB
      · simp only [List.mem_cons, List.not_mem_nil, or_false] at hfA
        rcases hfA with rfl | rfl | rfl <;> rfl
      · split at hfB
        · simp only [List.mem_singleton] at hfB
          subst hfB
          rfl
        · exact absurd hfB (List.not_mem_nil f)
    · split at hfC
      · simp only [List.mem_cons, List.not_mem_nil, or_false] at hfC
        rcases hfC with rfl | rfl <;> simp [massHistNames] at hh
      · exact absurd hfC (List.not_mem_nil f)
  · intro f hf hh
    simp only [mcFillsWithFlag] at hf
    rcases List.mem_append.mp hf with hfA | hfB
    · simp only [List.mem_cons, List.not_mem_nil, or_false] at hfA
      rcases hfA with rfl | rfl | rfl | rfl | rfl | rfl | rfl | rfl | rfl |
        rfl | rfl | rfl | rfl <;>
        first
          | rfl
          | simp [massHistNames] at hh
    · split at hfB
      · simp only [List.mem_singleton] at hfB
        subst hfB
        rfl
      · exact absurd hfB (List.not_mem_nil f)

/-- Concrete exercise of `mass_method_selection`: with the toggle off, the
mass histogram fill of the concrete candidate carries its `mK0Short`. -/
theorem mass_method_selection_app :
    (Fill.mk "h2_masspT" [massUsed sqId cfgW v0W, v0W.pt]).vals.head? =
      some (massUsed sqId cfgW v0W) :=
  (mass_method_selection sqId cfgW v0W mcPionPos mcPionNeg false).2.1
    ⟨"h2_masspT", [massUsed sqId cfgW v0W, v0W.pt]⟩
    (by simp [acceptedFillsData]) (by simp [massHistNames])

/-- C3: in truth mode, an accepted candidate with an unresolved daughter
truth link, or whose daughters' true species codes are not a (+211, -211)
pair, is skipped entirely: its only emitted fill is the per-candidate
counter tick. -/
theorem mc_daughter_guard (sq : ℚ → ℚ) (cfg : Config) (coll : Collision)
    (v0 : V0)
    (hacc : acceptV0 cfg v0 v0.negTrack v0.posTrack coll = some true)
    (hfail : v0.posTrack.mcParticle = none ∨ v0.negTrack.mcParticle = none ∨
      (∃ m, v0.posTrack.mcParticle = some m ∧ m.pdgCode ≠ 211) ∨
      (∃ m, v0.negTrack.mcParticle = some m ∧ m.pdgCode ≠ -211)) :
    processMCV0 sq cfg coll v0 = some [candTick] := by
  simp only [processMCV0, hacc]
  rcases hfail with hp | hn | ⟨m, hm, hne⟩ | ⟨m, hm, hne⟩
  · simp [hp]
  · cases hp : v0.posTrack.mcParticle with
    | none => simp [hp]
    | some p => simp [hp, hn]
  · cases hn2 : v0.negTrack.mcParticle with
    | none => simp [hm, hn2]
    | some n => simp [hm, hn2, hne]
  · cases hp : v0.posTrack.mcParticle with
    | none => simp [hp]
    | some p => simp [hp, hm, hne]

/-- Concrete exercise of `mc_daughter_guard`: an accepted candidate whose
positive daughter lacks a truth link yields only the counter tick. -/
theorem mc_daughter_guard_app :
    processMCV0 sqId cfgW collW v0NoLink = some [candTick] :=
  mc_daughter_guard sqId cfgW collW v0NoLink accept_v0NoLink (Or.inl rfl)

/-- C10: in truth mode, an accepted, daughter-matched candidate whose own
truth link is unresolved or resolves to a species other than 310 is not
skipped: it emits its complete fill list with the sparse histogram's truth
flag false, and the flag affects no fill other than the sparse one. -/
theorem mother_link_flag_only (sq : ℚ → ℚ) (cfg : Config) (coll : Collision)
    (v0 : V0) (pMC nMC : McParticle)
    (hacc : acceptV0 cfg v0 v0.negTrack v0.posTrack coll = some true)
    (hp : v0.posTrack.mcParticle = some pMC)
    (hn : v0.negTrack.mcParticle = some nMC)
    (hpdg : pMC.pdgCode = 211) (hnpdg : nMC.pdgCode = -211)
    (hmother : v0.mcParticle = none ∨
      ∃ m, v0.mcParticle = some m ∧ m.pdgCode ≠ 310) :
    processMCV0 sq cfg coll v0 =
      some (candTick :: mcFillsWithFlag sq cfg v0 pMC nMC false) ∧
    isTrueK0s v0 = false ∧
    ∀ b1 b2 : Bool,
      (mcFillsWithFlag sq cfg v0 pMC nMC b1).filter
          (fun f => decide (f.hist ≠ "thn_mass")) =
        (mcFillsWithFlag sq cfg v0 pMC nMC b2).filter
          (fun f => decide (f.hist ≠ "thn_mass")) := by
  have hflag : isTrueK0s v0 = false := by
    rcases hmother with h | ⟨m, hm, hne⟩
    · simp [isTrueK0s, h]
    · simp [isTrueK0s, hm, hne]
  refine ⟨?_, hflag, ?_⟩
  · simp [processMCV0, hacc, hp, hn, hpdg, hnpdg, hflag]
  · intro b1 b2
    cases hmu : cfg.useMultidimHisto <;>
      simp [mcFillsWithFlag, hmu, List.filter_append, List.filter]

/-- Concrete exercise of `mother_link_flag_only`: the concrete candidate has
no mother-level truth link, is daughter-matched, and still emits its full
fill list with a false truth flag. -/
theorem mother_link_flag_only_app :
    processMCV0 sqId cfgW collW v0W =
      some (candTick :: mcFillsWithFlag sqId cfgW v0W mcPionPos mcPionNeg
        false) :=
  (mother_link_flag_only sqId cfgW collW v0W mcPionPos mcPionNeg
    accept_v0W_tracks rfl rfl rfl rfl (Or.inl rfl)).1

/-- C9: the truth-mode resolution fills divide by each daughter's true px,
py, pz and pt and (in the sparse fill) by the reconstructed and true
transverse momenta with no zero guard: with all these divisors nonzero every
division is well-defined, while a zero true momentum component reaches a
division by zero; the first resolution fill carries exactly the first of
these quotients. -/
theorem division_edge :
    (∀ (v0 : V0) (pMC nMC : McParticle),
      pMC.pt ≠ 0 → pMC.px ≠ 0 → pMC.py ≠ 0 → pMC.pz ≠ 0 →
      nMC.pt ≠ 0 → nMC.px ≠ 0 → nMC.py ≠ 0 → nMC.pz ≠ 0 →
      v0.positivept ≠ 0 → v0.negativept ≠ 0 →
      mcResidualsChecked v0 pMC nMC =
        some [(v0.positivept - pMC.pt) / pMC.pt,
              (v0.pxpos - pMC.px) / pMC.px,
              (v0.pypos - pMC.py) / pMC.py,
              (v0.pzpos - pMC.pz) / pMC.pz,
              (v0.negativept - nMC.pt) / nMC.pt,
              (v0.pxneg - nMC.px) / nMC.px,
              (v0.pyneg - nMC.py) / nMC.py,
              (v0.pzneg - nMC.pz) / nMC.pz,
              1 / v0.positivept - 1 / pMC.pt,
              1 / v0.negativept - 1 / nMC.pt]) ∧
    (mcZeroPx.px = 0 ∧ mcResidualsChecked v0W mcZeroPx mcPionNeg = none) ∧
    (∀ (sq : ℚ → ℚ) (cfg : Config) (v0 : V0) (pMC nMC : McParticle)
      (b : Bool),
      (mcFillsWithFlag sq cfg v0 pMC nMC b).head? =
        some ⟨"h2_genPtPosPtRes",
          [(v0.positivept - pMC.pt) / pMC.pt, pMC.pt]⟩) := by
  refine ⟨?_, ⟨rfl, ?_⟩, ?_⟩
  · intro v0 pMC nMC h1 h2 h3 h4 h5 h6 h7 h8 h9 h10
    simp [mcResidualsChecked, divChecked, h1, h2, h3, h4, h5, h6, h7, h8,
      h9, h10]
  · simp [mcResidualsChecked, divChecked, v0W, mcZeroPx, mcPionNeg]
  · intro sq cfg v0 pMC nMC b
    rfl

/-- Concrete exercise of `division_edge`: with all-unit true momenta every
checked division succeeds. -/
theorem division_edge_app :
    mcResidualsChecked v0W mcPionPos mcPionNeg =
      some [(v0W.positivept - mcPionPos.pt) / mcPionPos.pt,
            (v0W.pxpos - mcPionPos.px) / mcPionPos.px,
            (v0W.pypos - mcPionPos.py) / mcPionPos.py,
            (v0W.pzpos - mcPionPos.pz) / mcPionPos.pz,
            (v0W.negativept - mcPionNeg.pt) / mcPionNeg.pt,
            (v0W.pxneg - mcPionNeg.px) / mcPionNeg.px,
            (v0W.pyneg - mcPionNeg.py) / mcPionNeg.py,
            (v0W.pzneg - mcPionNeg.pz) / mcPionNeg.pz,
            1 / v0W.positivept - 1 / mcPionPos.pt,
            1 / v0W.negativept - 1 / mcPionNeg.pt] :=
  division_edge.1 v0W mcPionPos mcPionNeg
    (by norm_num [mcPionPos]) (by norm_num [mcPionPos])
    (by norm_num [mcPionPos]) (by norm_num [mcPionPos])
    (by norm_num [mcPionNeg]) (by norm_num [mcPionNeg])
    (by norm_num [mcPionNeg]) (by norm_num [mcPionNeg])
    (by norm_num [v0W]) (by norm_num [v0W])

lemma evTick_ne_candTick : evTick ≠ candTick := by
  simp only [evTick, candTick, ne_eq, Fill.mk.injEq, not_and]
  intro _ h
  norm_num at h

lemma notick_data (sq : ℚ → ℚ) (cfg : Config) (v0 : V0) :
    ∀ f ∈ acceptedFillsData sq cfg v0, f.hist ≠ "h1_events" := by
  intro f hf
  simp only [acceptedFillsData] at hf
  rcases List.mem_append.mp hf with hf' | hfC
  · rcases List.mem_append.mp hf' with hfA | hfB
    · simp only [List.mem_cons, List.not_mem_nil, or_false] at hfA
      rcases hfA with rfl | rfl | rfl <;> simp
    · split at hfB
      · simp only [List.mem_singleton] at hfB
        subst hfB
        simp
      · exact absurd hfB (List.not_mem_nil f)
  · split at hfC
    · simp only [List.mem_cons, List.not_mem_nil, or_false] at hfC
      rcases hfC with rfl | rfl <;> simp
    · exact absurd hfC (List.not_mem_nil f)

lemma notick_mc (sq : ℚ → ℚ) (cfg : Config) (v0 : V0) (pMC nMC : McParticle)
    (b : Bool) :
    ∀ f ∈ mcFillsWithFlag sq cfg v0 pMC nMC b, f.hist ≠ "h1_events" := by
  intro f hf
  simp only [mcFillsWithFlag] at hf
  rcases List.mem_append.mp hf with hfA | hfB
  · simp only [List.mem_cons, List.not_mem_nil, or_false] at hfA
    rcases hfA with rfl | rfl | rfl | rfl | rfl | rfl | rfl | rfl | rfl |
      rfl | rfl | rfl | rfl <;> simp
  · split at hfB
    · simp only [List.mem_singleton] at hfB
      subst hfB
      simp
    · exact absurd hfB (List.not_mem_nil f)

lemma ticks_data (sq : ℚ → ℚ) (cfg : Config) (v0 : V0) :
    (acceptedFillsData sq cfg v0).count evTick = 0 ∧
    (acceptedFillsData sq cfg v0).count candTick = 0 :=
  ⟨List.count_eq_zero.mpr fun hmem => notick_data sq cfg v0 evTick hmem rfl,
   List.count_eq_zero.mpr fun hmem => notick_data sq cfg v0 candTick hmem rfl⟩

lemma ticks_mc (sq : ℚ → ℚ) (cfg : Config) (v0 : V0) (pMC nMC : McParticle)
    (b : Bool) :
    (mcFillsWithFlag sq cfg v0 pMC nMC b).count evTick = 0 ∧
    (mcFillsWithFlag sq cfg v0 pMC nMC b).count candTick = 0 :=
  ⟨List.count_eq_zero.mpr fun hmem =>
      notick_mc sq cfg v0 pMC nMC b evTick hmem rfl,
   List.count_eq_zero.mpr fun hmem =>
      notick_mc sq cfg v0 pMC nMC b candTick hmem rfl⟩

lemma count_ticks_single :
    List.count evTick [candTick] = 0 ∧ List.count candTick [candTick] = 1 := by
  constructor
  · simp [List.count_cons, Ne.symm evTick_ne_candTick]
  · simp

lemma count_ticks_cons (fills : List Fill) (he : fills.count evTick = 0)
    (hc : fills.count candTick = 0) :
    (candTick :: fills).count evTick = 0 ∧
    (candTick :: fills).count candTick = 1 := by
  constructor
  · simp [List.count_cons, he, Ne.symm evTick_ne_candTick]
  · simp [List.count_cons, hc]

lemma processDataV0_spec (sq : ℚ → ℚ) (cfg : Config) (coll : Collision)
    (v0 : V0) (hv : validSwitches cfg) :
    ∃ l, processDataV0 sq cfg coll v0 = some l ∧
      l.count evTick = 0 ∧ l.count candTick = 1 := by
  have hacc := acceptV0_valid cfg v0 v0.negTrack v0.posTrack coll hv
  cases hb : allCutsB cfg v0 v0.negTrack v0.posTrack coll
  · rw [hb] at hacc
    exact ⟨[candTick], by simp [processDataV0, hacc], count_ticks_single.1,
      count_ticks_single.2⟩
  · rw [hb] at hacc
    obtain ⟨he, hc⟩ := ticks_data sq cfg v0
    exact ⟨candTick :: acceptedFillsData sq cfg v0,
      by simp [processDataV0, hacc],
      (count_ticks_cons _ he hc).1, (count_ticks_cons _ he hc).2⟩

lemma processMCV0_spec (sq : ℚ → ℚ) (cfg : Config) (coll : Collision)
    (v0 : V0) (hv : validSwitches cfg) :
    ∃ l, processMCV0 sq cfg coll v0 = some l ∧
      l.count evTick = 0 ∧ l.count candTick = 1 := by
  have hacc := acceptV0_valid cfg v0 v0.negTrack v0.posTrack coll hv
  cases hb : allCutsB cfg v0 v0.negTrack v0.posTrack coll
  · rw [hb] at hacc
    exact ⟨[candTick], by simp [processMCV0, hacc], count_ticks_single.1,
      count_ticks_single.2⟩
  · rw [hb] at hacc
    cases hp : v0.posTrack.mcParticle with
    | none =>
      exact ⟨[candTick], by simp [processMCV0, hacc, hp],
        count_ticks_single.1, count_ticks_single.2⟩
    | some pMC =>
      cases hn : v0.negTrack.mcParticle with
      | none =>
        exact ⟨[candTick], by simp [processMCV0, hacc, hp, hn],
          count_ticks_single.1, count_ticks_single.2⟩
      | some nMC =>
        by_cases hpdg : pMC.pdgCode ≠ 211 ∨ nMC.pdgCode ≠ -211
        · refine ⟨[candTick], ?_, count_ticks_single.1, count_ticks_single.2⟩
          simp only [processMCV0, hacc, hp, hn]
          rw [if_pos hpdg]
        · obtain ⟨he, hc⟩ := ticks_mc sq cfg v0 pMC nMC (isTrueK0s v0)
          refine ⟨candTick :: mcFillsWithFlag sq cfg v0 pMC nMC (isTrueK0s v0),
            ?_, (count_ticks_cons _ he hc).1, (count_ticks_cons _ he hc).2⟩
          simp only [processMCV0, hacc, hp, hn]
          rw [if_neg hpdg]

lemma loopData_spec (sq : ℚ → ℚ) (cfg : Config) (coll : Collision)
    (hv : validSwitches cfg) (v0s : List V0) :
    ∃ fs, loopData sq cfg coll v0s = some fs ∧
      fs.count evTick = 0 ∧ fs.count candTick = v0s.length := by
  induction v0s with
  | nil => exact ⟨[], rfl, by simp, by simp⟩
  | cons v0 rest ih =>
    obtain ⟨fs, hfs, he, hc⟩ := ih
    obtain ⟨l, hl, hle, hlc⟩ := processDataV0_spec sq cfg coll v0 hv
    refine ⟨l ++ fs, ?_, ?_, ?_⟩
    · simp [loopData, hl, hfs]
    · simp [List.count_append, hle, he]
    · simp [List.count_append, hlc, hc, Nat.add_comm]

lemma loopMC_spec (sq : ℚ → ℚ) (cfg : Config) (coll : Collision)
    (hv : validSwitches cfg) (v0s : List V0) :
    ∃ fs, loopMC sq cfg coll v0s = some fs ∧
      fs.count evTick = 0 ∧ fs.count candTick = v0s.length := by
  induction v0s with
  | nil => exact ⟨[], rfl, by simp, by simp⟩
  | cons v0 rest ih =>
    obtain ⟨fs, hfs, he, hc⟩ := ih
    obtain ⟨l, hl, hle, hlc⟩ := processMCV0_spec sq cfg coll v0 hv
    refine ⟨l ++ fs, ?_, ?_, ?_⟩
    · simp [loopMC, hl, hfs]
    · simp [List.count_append, hle, he]
    · simp [List.count_append, hlc, hc, Nat.add_comm]

lemma countHist_data (sq : ℚ → ℚ) (cfg : Config) (v0 : V0) :
    countHist (acceptedFillsData sq cfg v0) "h2_masspT" = 1 ∧
    countHist (acceptedFillsData sq cfg v0) "h2_masseta" = 1 ∧
    countHist (acceptedFillsData sq cfg v0) "h2_massphi" = 1 ∧
    countHist (acceptedFillsData sq cfg v0) "thn_mass" =
      (if cfg.useMultidimHisto then 1 else 0) ∧
    countHist (acceptedFillsData sq cfg v0) "h3_tpc_vs_pid_hypothesis" =
      (if cfg.enableTPCPlot then 2 else 0) := by
  cases hmu : cfg.useMultidimHisto <;> cases ht : cfg.enableTPCPlot <;>
    simp [countHist, acceptedFillsData, hmu, ht]

lemma countHist_mc (sq : ℚ → ℚ) (cfg : Config) (v0 : V0)
    (pMC nMC : McParticle) (b : Bool) :
    ∀ h ∈ mcHistNames cfg,
      countHist (mcFillsWithFlag sq cfg v0 pMC nMC b) h = 1 := by
  intro h hh
  cases hmu : cfg.useMultidimHisto <;>
    simp only [mcHistNames, hmu, if_true, if_false, List.append_nil,
      List.mem_append, List.mem_cons, List.mem_singleton,
      List.not_mem_nil, or_false, Bool.false_eq_true, Bool.true_eq_false] at hh
  · rcases hh with rfl | rfl | rfl | rfl | rfl | rfl | rfl | rfl | rfl |
      rfl | rfl | rfl | rfl <;>
      simp [countHist, mcFillsWithFlag, hmu]
  · rcases hh with (rfl | rfl | rfl | rfl | rfl | rfl | rfl | rfl | rfl |
      rfl | rfl | rfl | rfl) | rfl <;>
      simp [countHist, mcFillsWithFlag, hmu]

/-- C7 counterexample: with the TPC diagnostic plot enabled, an accepted
candidate makes two fills — not one — into that enabled histogram, refuting
"exactly one fill to every enabled histogram". -/
theorem fill_discipline_cex :
    cfgTPC.enableTPCPlot = true ∧
    acceptV0 cfgTPC v0W v0W.negTrack v0W.posTrack collW = some true ∧
    countHist (acceptedFillsData sqId cfgTPC v0W)
      "h3_tpc_vs_pid_hypothesis" = 2 := by
  refine ⟨rfl, ?_, ?_⟩
  · rw [acceptV0_valid cfgTPC v0W v0W.negTrack v0W.posTrack collW (by decide)]
    norm_num [allCutsB, rapidityPass, radiusPass, lifetimePass, itsIbPass,
      detPass, pidPass, tpcPass, nsigmaPass, rowsPass, cfgTPC, cfgW, v0W,
      trkPosW, trkNegW, collW, sMassK0, abs_of_nonneg]
  · simp [countHist, acceptedFillsData, cfgTPC, cfgW]

/-- C7 (amended): per processed event each mode emits exactly one 0.5 tick
(even with no candidates) and one 1.5 tick per pre-filtered candidate, the
tick preceding the acceptance decision; a rejected or skipped candidate
emits nothing beyond its tick; an accepted candidate emits exactly one fill
to every enabled histogram, except the TPC diagnostic histogram of data
mode, which receives exactly two fills (one per daughter) when enabled. -/
theorem fill_discipline (sq : ℚ → ℚ) (cfg : Config) (coll : Collision)
    (v0s : List V0) (hv : validSwitches cfg) :
    (∃ fs, processData sq cfg coll v0s = some fs ∧
      fs.count evTick = 1 ∧ fs.count candTick = v0s.length) ∧
    (∃ fs, processMC sq cfg coll v0s = some fs ∧
      fs.count evTick = 1 ∧ fs.count candTick = v0s.length) ∧
    (∀ v0 : V0, acceptV0 cfg v0 v0.negTrack v0.posTrack coll = some false →
      processDataV0 sq cfg coll v0 = some [candTick] ∧
      processMCV0 sq cfg coll v0 = some [candTick]) ∧
    (∀ v0 : V0, acceptV0 cfg v0 v0.negTrack v0.posTrack coll = some true →
      processDataV0 sq cfg coll v0 =
        some (candTick :: acceptedFillsData sq cfg v0) ∧
      countHist (acceptedFillsData sq cfg v0) "h2_masspT" = 1 ∧
      countHist (acceptedFillsData sq cfg v0) "h2_masseta" = 1 ∧
      countHist (acceptedFillsData sq cfg v0) "h2_massphi" = 1 ∧
      countHist (acceptedFillsData sq cfg v0) "thn_mass" =
        (if cfg.useMultidimHisto then 1 else 0) ∧
      countHist (acceptedFillsData sq cfg v0) "h3_tpc_vs_pid_hypothesis" =
        (if cfg.enableTPCPlot then 2 else 0)) ∧
    (∀ (v0 : V0) (pMC nMC : McParticle),
      acceptV0 cfg v0 v0.negTrack v0.posTrack coll = some true →
      v0.posTrack.mcParticle = some pMC →
      v0.negTrack.mcParticle = some nMC →
      pMC.pdgCode = 211 → nMC.pdgCode = -211 →
      processMCV0 sq cfg coll v0 =
        some (candTick :: mcFillsWithFlag sq cfg v0 pMC nMC (isTrueK0s v0)) ∧
      ∀ h ∈ mcHistNames cfg,
        countHist (mcFillsWithFlag sq cfg v0 pMC nMC (isTrueK0s v0)) h = 1) := by
  refine ⟨?_, ?_, ?_, ?_, ?_⟩
  · obtain ⟨fs, hfs, he, hc⟩ := loopData_spec sq cfg coll hv v0s
    refine ⟨evTick :: fs, ?_, ?_, ?_⟩
    · simp [processData, hfs]
    · simp [List.count_cons, he]
    · simp [List.count_cons, hc, evTick_ne_candTick]
  · obtain ⟨fs, hfs, he, hc⟩ := loopMC_spec sq cfg coll hv v0s
    refine ⟨evTick :: fs, ?_, ?_, ?_⟩
    · simp [processMC, hfs]
    · simp [List.count_cons, he]
    · simp [List.count_cons, hc, evTick_ne_candTick]
  · intro v0 hrej
    constructor
    · simp [processDataV0, hrej]
    · simp [processMCV0, hrej]
  · intro v0 hacc
    obtain ⟨c1, c2, c3, c4, c5⟩ := countHist_data sq cfg v0
    exact ⟨by simp [processDataV0, hacc], c1, c2, c3, c4, c5⟩
  · intro v0 pMC nMC hacc hp hn hpdg hnpdg
    constructor
    · simp only [processMCV0, hacc, hp, hn]
      rw [if_neg]
      push_neg
      exact ⟨hpdg, hnpdg⟩
    · exact countHist_mc sq cfg v0 pMC nMC (isTrueK0s v0)

/-- Concrete exercise of `fill_discipline`: an event with no candidates
still emits exactly one 0.5 tick and no 1.5 tick in data mode. -/
theorem fill_discipline_app :
    ∃ fs, processData sqId cfgW collW [] = some fs ∧
      fs.count evTick = 1 ∧ fs.count candTick = List.length ([] : List V0) :=
  (fill_discipline sqId cfgW collW [] (by decide)).1

end K0sPerf
